import Mathlib

/-!
Verification of the `qs-parser` PDF floor-plan extraction module
(`src/app/services/pdf_extractor.py`) against its natural-language
specification.

The Python module is shallowly embedded below.  Conventions:

* Python `float` values are idealised as exact arithmetic: the text-parsing
  subsystem (regex-driven dimension and scale parsing) uses `ℚ` and is fully
  computable; the geometric subsystem (which calls `math.sqrt` and
  `math.atan2`) uses `ℝ`.
* Python dicts with optional keys (`thickness`, `is_orthogonal` only present
  on some wall records) are embedded as structures with `Option` fields.
* Regular-expression searches (`re.search`) are embedded as explicit
  leftmost-match scanners over `List Char`, one per pattern, reproducing
  the greedy/backtracking behaviour of each concrete pattern.
* `fitz` (PyMuPDF) supplies the out-of-scope document model: a document is a
  list of pages, a page carries its vector-drawing paths, its text blocks
  and its dimensions, mirroring exactly the data the extractor reads.
-/

namespace QsParser

/-! ## Character-level helpers (Python `str` / `re` semantics) -/

/-- Python `\s` class for ASCII text: space, tab, newline, carriage return,
vertical tab, form feed. -/
def pyIsSpace (c : Char) : Bool :=
  c = ' ' || c = '\t' || c = '\n' || c = '\r' || c = '\x0b' || c = '\x0c'

/-- Python `\w` class restricted to ASCII: letters, digits, underscore. -/
def pyIsWord (c : Char) : Bool :=
  c.isAlphanum || c = '_'

/-- Python `str.strip()`: drop leading and trailing whitespace. -/
def pyStrip (s : List Char) : List Char :=
  ((s.dropWhile pyIsSpace).reverse.dropWhile pyIsSpace).reverse

/-- Python `str.strip()` on `String`. -/
def pyStripS (s : String) : String :=
  String.mk (pyStrip s.toList)

/-- Python substring containment `needle in hay`. -/
def containsSub (needle : List Char) : List Char → Bool
  | [] => needle.isEmpty
  | c :: rest => needle.isPrefixOf (c :: rest) || containsSub needle rest

/-- Numeric value of a digit run, as `float(...)` would read its integer part. -/
def digitsToNat (ds : List Char) : ℕ :=
  ds.foldl (fun n c => 10 * n + (c.toNat - 48)) 0

/-- Value of a matched group of shape `\d+(\.\d+)?`, as read by `float(...)`
(idealised to an exact rational). -/
def charsToQ (g : List Char) : ℚ :=
  let (ip, rest) := g.span Char.isDigit
  match rest with
  | '.' :: fp => (digitsToNat ip : ℚ) + (digitsToNat fp : ℚ) / (10 : ℚ) ^ fp.length
  | _ => (digitsToNat ip : ℚ)

/-- A successful `re.Match` for the dimension patterns: group 1 is always
present, group 2 only for the imperial pattern (`match.lastindex >= 2`). -/
structure MatchG where
  g1 : List Char
  g2 : Option (List Char)
deriving DecidableEq

/-- Embeds `re.search`: try the anchored matcher at every position, leftmost first. -/
def searchWith {α : Type} (m : List Char → Option α) : List Char → Option α
  | [] => m []
  | c :: rest =>
    match m (c :: rest) with
    | some g => some g
    | none => searchWith m rest

/-- Anchored match of the leading group `(\d+(?:\.\d+)?)` (greedy); returns the
group's characters and the remaining input.  The greedy scan is faithful: no
continuation of these patterns can consume a digit, so backtracking into the
digit runs never changes the outcome. -/
def numGroup (s : List Char) : Option (List Char × List Char) :=
  match s.span Char.isDigit with
  | ([], _) => none
  | (ds, rest) =>
    match rest with
    | '.' :: r2 =>
      match r2.span Char.isDigit with
      | ([], _) => some (ds, rest)
      | (fs, r3) => some (ds ++ '.' :: fs, r3)
    | _ => some (ds, rest)

/-- Case-insensitive letter test (`re.IGNORECASE`). -/
def isCI (c target : Char) : Bool := c.toLower = target

/-- Anchored matcher for `(\d+(?:\.\d+)?)\s*mm` (IGNORECASE). -/
def mmAt (s : List Char) : Option MatchG :=
  match numGroup s with
  | none => none
  | some (g, rest) =>
    match rest.dropWhile pyIsSpace with
    | m1 :: m2 :: _ => if isCI m1 'm' && isCI m2 'm' then some ⟨g, none⟩ else none
    | _ => none

/-- Anchored matcher for `(\d+(?:\.\d+)?)\s*m(?!\w)` (IGNORECASE). -/
def mAt (s : List Char) : Option MatchG :=
  match numGroup s with
  | none => none
  | some (g, rest) =>
    match rest.dropWhile pyIsSpace with
    | m1 :: r2 =>
      if isCI m1 'm' then
        match r2 with
        | [] => some ⟨g, none⟩
        | c :: _ => if pyIsWord c then none else some ⟨g, none⟩
      else none
    | [] => none

/-- Anchored matcher for `(\d+(?:\.\d+)?)\s*cm` (IGNORECASE). -/
def cmAt (s : List Char) : Option MatchG :=
  match numGroup s with
  | none => none
  | some (g, rest) =>
    match rest.dropWhile pyIsSpace with
    | c1 :: m2 :: _ => if isCI c1 'c' && isCI m2 'm' then some ⟨g, none⟩ else none
    | _ => none

/-- Anchored matcher for `(\d+)'[\s-]?(\d+)\"?` (imperial feet-inches).
The optional `[\s-]?` is consumed exactly when present, since a class
character can never satisfy the following `(\d+)`. -/
def impAt (s : List Char) : Option MatchG :=
  match s.span Char.isDigit with
  | ([], _) => none
  | (ds, rest) =>
    match rest with
    | '\'' :: r2 =>
      let r3 := match r2 with
        | c :: t => if pyIsSpace c || c = '-' then t else r2
        | [] => r2
      match r3.span Char.isDigit with
      | ([], _) => none
      | (ds2, _) => some ⟨ds, some ds2⟩
    | _ => none

/-- Anchored matcher for `(\d{3,5})(?:\s|$)` (bare 3-5 digit numbers).
At a given position the greedy `\d{3,5}` can only succeed by consuming the
entire digit run (a shorter take is followed by a digit, which is neither
`\s` nor end of input), so the run length must lie in `[3,5]`. -/
def bareAt (s : List Char) : Option MatchG :=
  match s.span Char.isDigit with
  | (ds, rest) =>
    if 3 ≤ ds.length && ds.length ≤ 5 then
      match rest with
      | [] => some ⟨ds, none⟩
      | c :: _ => if pyIsSpace c then some ⟨ds, none⟩ else none
    else none

/-- The fixed pattern list of `extract_dimensions`, tried in priority order;
first pattern to match a span wins. -/
def firstPatternMatch (t : List Char) : Option MatchG :=
  match searchWith mmAt t with
  | some g => some g
  | none =>
    match searchWith mAt t with
    | some g => some g
    | none =>
      match searchWith cmAt t with
      | some g => some g
      | none =>
        match searchWith impAt t with
        | some g => some g
        | none => searchWith bareAt t

/-! ## Data model: text-side records -/

/-- A positioned text span (`span["text"]`, `span["bbox"]`). -/
structure Span where
  text : String
  bbox : ℚ × ℚ × ℚ × ℚ
deriving DecidableEq

/-- A line of a text block (`line["spans"]`). -/
structure TextLine where
  spans : List Span
deriving DecidableEq

/-- A text block of `page.get_text("dict")`; image blocks carry no
`"lines"` key, embedded as `none`. -/
structure Block where
  lines_opt : Option (List TextLine)
deriving DecidableEq

/-- A dimension annotation record produced by `extract_dimensions`. -/
structure Dimension where
  value : String
  numeric_value : Option ℚ
  position : ℚ × ℚ
deriving DecidableEq

/-! ## `parse_dimension_to_mm` and `extract_dimensions` -/

/-- Embedding of `parse_dimension_to_mm(text, match)`: convert dimension text to
millimeters.  The `try/except` is unreachable for the groups these patterns
produce, so the embedding is total; `25.4` is idealised as `254/10`. -/
def parse_dimension_to_mm (t : List Char) (g : MatchG) : Option ℚ :=
  let tl := t.map Char.toLower
  if containsSub ['m', 'm'] tl then
    some (charsToQ g.g1)
  else if containsSub ['c', 'm'] tl then
    some (charsToQ g.g1 * 10)
  else if containsSub ['m'] tl && !(containsSub ['m', 'm'] tl) then
    some (charsToQ g.g1 * 1000)
  else if t.contains '\'' || t.contains '\"' then
    let feet := charsToQ g.g1
    let inches := match g.g2 with
      | some ds => charsToQ ds
      | none => 0
    some ((feet * 12 + inches) * (254 / 10))
  else
    let num := charsToQ g.g1
    if num ≥ 100 then some num else some (num * 1000)

/-- Center of a span's bounding box. -/
def bboxCenter (b : ℚ × ℚ × ℚ × ℚ) : ℚ × ℚ :=
  ((b.1 + b.2.2.1) / 2, (b.2.1 + b.2.2.2) / 2)

/-- Per-span body of the `extract_dimensions` loop: first matching pattern
(if any) produces one dimension record. -/
def spanDimension (sp : Span) : Option Dimension :=
  let t := pyStrip sp.text.toList
  match firstPatternMatch t with
  | none => none
  | some g =>
    some { value := String.mk t
           numeric_value := parse_dimension_to_mm t g
           position := bboxCenter sp.bbox }

/-- Embedding of `extract_dimensions` over the text blocks of a page. -/
def extract_dimensions (blocks : List Block) : List Dimension :=
  blocks.foldr
    (fun b acc =>
      match b.lines_opt with
      | none => acc
      | some lns =>
        (lns.foldr (fun ln acc2 => (ln.spans.filterMap spanDimension) ++ acc2) []) ++ acc)
    []

/-! ## `detect_scale` -/

/-- Anchored matcher for the core `1\s*:\s*(\d+)` of the scale pattern. -/
def scaleCoreAt (s : List Char) : Option ℕ :=
  match s with
  | '1' :: r =>
    match r.dropWhile pyIsSpace with
    | ':' :: r2 =>
      match (r2.dropWhile pyIsSpace).span Char.isDigit with
      | ([], _) => none
      | (ds, _) => some (digitsToNat ds)
    | _ => none
  | _ => none

/-- Anchored matcher for `(?:scale\s*)?1\s*:\s*(\d+)` (IGNORECASE): the
optional `scale` prefix is tried first, then the bare core. -/
def scaleAt (s : List Char) : Option ℕ :=
  match s with
  | c1 :: c2 :: c3 :: c4 :: c5 :: r =>
    if isCI c1 's' && isCI c2 'c' && isCI c3 'a' && isCI c4 'l' && isCI c5 'e' then
      match scaleCoreAt (r.dropWhile pyIsSpace) with
      | some n => some n
      | none => scaleCoreAt s
    else scaleCoreAt s
  | _ => scaleCoreAt s

/-- Runs `re.search` of the scale pattern over one text line. -/
def scaleLineMatch (t : String) : Option ℕ :=
  searchWith scaleAt t.toList

/-- Embedding of `detect_scale(dimensions, raw_text)`: scan the raw text lines in order,
return the first matched `N` as a number; `dimensions` is accepted but never
read, exactly as in the source. -/
def detect_scale (dimensions : List Dimension) (raw_text : List String) : Option ℚ :=
  match raw_text with
  | [] => none
  | t :: ts =>
    match scaleLineMatch t with
    | some n => some (n : ℚ)
    | none => detect_scale dimensions ts

/-! ## Data model: geometric primitives

Coordinates and stroke widths are `float`s in the source; they are idealised
as real numbers (`math.sqrt` and `math.atan2` force `ℝ` over `ℚ`). -/

/-- A 2D point of the drawing space. -/
structure Point where
  x : ℝ
  y : ℝ

/-- A `fitz.Rect` as exposed by `get_drawings` rectangle items; following
PyMuPDF, `width`/`height` are the absolute coordinate differences. -/
structure Rect4 where
  x0 : ℝ
  y0 : ℝ
  x1 : ℝ
  y1 : ℝ

def Rect4.width (r : Rect4) : ℝ := |r.x1 - r.x0|

def Rect4.height (r : Rect4) : ℝ := |r.y1 - r.y0|

/-- One drawing item: `"l"` (line), `"re"` (rectangle), `"c"` (cubic Bezier
curve, four control points), or `"qu"` (quad, ignored by every extractor). -/
inductive Item where
  | line (p q : Point)
  | rect (r : Rect4)
  | curve (p1 p2 p3 p4 : Point)
  | quad (p1 p2 p3 p4 : Point)

/-- One path of `page.get_drawings()`: stroke width, optional color, items. -/
structure DrawPath where
  width : ℝ
  color : Option Unit
  items : List Item

/-- A wall record.  The Python code builds these as dicts whose key set
varies: only enhanced line candidates carry `thickness` and
`is_orthogonal`, and merged walls drop `is_orthogonal` again — hence the
`Option` fields (`none` = key absent).  `endp` stands for the dict key
`"end"` (a reserved word in Lean). -/
structure Wall where
  start : Point
  endp : Point
  length : ℝ
  thickness : Option ℝ
  is_orthogonal : Option Prop

noncomputable instance : Inhabited Wall := ⟨⟨⟨0, 0⟩, ⟨0, 0⟩, 0, none, none⟩⟩

/-- Euclidean segment length, `math.sqrt((qx-px)**2 + (qy-py)**2)`. -/
noncomputable def euclen (p q : Point) : ℝ :=
  Real.sqrt ((q.x - p.x) ^ 2 + (q.y - p.y) ^ 2)

/-- Embedding of `math.atan2(y, x)`, with range `(-π, π]`. -/
noncomputable def atan2 (y x : ℝ) : ℝ :=
  if 0 < x then Real.arctan (y / x)
  else if x < 0 then
    (if 0 ≤ y then Real.arctan (y / x) + Real.pi else Real.arctan (y / x) - Real.pi)
  else if 0 < y then Real.pi / 2
  else if y < 0 then -(Real.pi / 2)
  else 0

/-- Embedding of `math.degrees`. -/
noncomputable def degrees (θ : ℝ) : ℝ := θ * 180 / Real.pi

/-- Python float `%` with positive divisor: `a - b * floor(a / b)`. -/
noncomputable def pymod (a b : ℝ) : ℝ := a - b * (⌊a / b⌋ : ℝ)

/-! ## Lightweight wall extraction (`extract_walls`, multi-page path) -/

open Classical in
/-- Per-item body of the `extract_walls` loop: a line is kept when
`length > 10 and width >= 0.3`; a rectangle with `w > 10 or h > 10` emits
its four edges; curves and quads produce nothing.  Emitted records carry no
`thickness` / `is_orthogonal` keys. -/
noncomputable def lite_item_walls (width : ℝ) : Item → List Wall
  | Item.line p q =>
    if euclen p q > 10 ∧ width ≥ 0.3 then
      [⟨p, q, euclen p q, none, none⟩]
    else []
  | Item.rect r =>
    if r.width > 10 ∨ r.height > 10 then
      [⟨⟨r.x0, r.y0⟩, ⟨r.x1, r.y0⟩, r.width, none, none⟩,
       ⟨⟨r.x1, r.y0⟩, ⟨r.x1, r.y1⟩, r.height, none, none⟩,
       ⟨⟨r.x1, r.y1⟩, ⟨r.x0, r.y1⟩, r.width, none, none⟩,
       ⟨⟨r.x0, r.y1⟩, ⟨r.x0, r.y0⟩, r.height, none, none⟩]
    else []
  | _ => []

/-- Embedding of `extract_walls(page)` over the page's drawing paths. -/
noncomputable def extract_walls (paths : List DrawPath) : List Wall :=
  paths.foldr
    (fun pa acc => pa.items.foldr (fun it acc2 => lite_item_walls pa.width it ++ acc2) [] ++ acc)
    []

/-! ## Enhanced wall extraction (`extract_walls_enhanced`, single-page path) -/

/-- A collected line of the first pass of `extract_walls_enhanced`. -/
structure LineInfo where
  start : Point
  endp : Point
  length : ℝ
  width : ℝ
  angle : ℝ
  color : Option Unit

/-- First pass: collect every `"l"` item of every path with its length,
`atan2` angle, stroke width and color. -/
noncomputable def collect_lines (paths : List DrawPath) : List LineInfo :=
  paths.foldr
    (fun pa acc =>
      pa.items.filterMap
        (fun it =>
          match it with
          | Item.line p q =>
            some ⟨p, q, euclen p q, pa.width, atan2 (q.y - p.y) (q.x - p.x), pa.color⟩
          | _ => none) ++ acc)
    []

/-- The orthogonality test of the second pass:
`angle_deg = abs(math.degrees(angle)) % 180` is within 5 of 0, 90 or 180. -/
noncomputable def is_orthogonal_of_angle (angle : ℝ) : Prop :=
  pymod |degrees angle| 180 < 5 ∨
  |pymod |degrees angle| 180 - 90| < 5 ∨
  |pymod |degrees angle| 180 - 180| < 5

open Classical in
/-- Second pass, per collected line: keep as a wall candidate when
`length > 20 and (width >= 0.3 or is_orthogonal)`. -/
noncomputable def classify_line (li : LineInfo) : Option Wall :=
  if li.length > 20 ∧ (li.width ≥ 0.3 ∨ is_orthogonal_of_angle li.angle) then
    some ⟨li.start, li.endp, li.length, some li.width,
          some (is_orthogonal_of_angle li.angle)⟩
  else none

/-! ## Wall merging (`merge_parallel_walls`) -/

/-- Embedding of `are_walls_parallel_and_close(w1, w2, tolerance)`: midpoint distance
below tolerance and length difference below 20% of `w1`'s length. -/
noncomputable def are_walls_parallel_and_close (w1 w2 : Wall) (tolerance : ℝ) : Prop :=
  Real.sqrt (((w2.start.x + w2.endp.x) / 2 - (w1.start.x + w1.endp.x) / 2) ^ 2 +
             ((w2.start.y + w2.endp.y) / 2 - (w1.start.y + w1.endp.y) / 2) ^ 2) < tolerance ∧
  |w1.length - w2.length| < w1.length * 0.2

/-- Embedding of `merge_two_walls(w1, w2)`: per-coordinate midpoints as endpoints,
average length, distance of start points (under `abs`) as thickness; the
merged dict carries no `is_orthogonal` key. -/
noncomputable def merge_two_walls (w1 w2 : Wall) : Wall :=
  ⟨⟨(w1.start.x + w2.start.x) / 2, (w1.start.y + w2.start.y) / 2⟩,
   ⟨(w1.endp.x + w2.endp.x) / 2, (w1.endp.y + w2.endp.y) / 2⟩,
   (w1.length + w2.length) / 2,
   some |Real.sqrt ((w1.start.x - w2.start.x) ^ 2 + (w1.start.y - w2.start.y) ^ 2)|,
   none⟩

open Classical in
/-- Inner loop of `merge_parallel_walls`: scan the index list for the first
`j` that is not yet consumed and qualifies against `w1`. -/
noncomputable def innerScan (w1 : Wall) (walls : List Wall) (tolerance : ℝ)
    (used : List ℕ) : List ℕ → Option ℕ
  | [] => none
  | j :: js =>
    if j ∈ used then innerScan w1 walls tolerance used js
    else if are_walls_parallel_and_close w1 (walls.getD j default) tolerance then some j
    else innerScan w1 walls tolerance used js

open Classical in
/-- Outer loop of `merge_parallel_walls` over the index range, carrying the
accumulated output and the set of consumed indices. -/
noncomputable def outerLoop (walls : List Wall) (tolerance : ℝ) :
    List ℕ → List Wall → List ℕ → List Wall
  | [], merged, _ => merged
  | i :: is, merged, used =>
    if i ∈ used then outerLoop walls tolerance is merged used
    else
      match innerScan (walls.getD i default) walls tolerance used
          (List.range' (i + 1) (walls.length - (i + 1))) with
      | some j =>
        outerLoop walls tolerance is
          (merged ++ [merge_two_walls (walls.getD i default) (walls.getD j default)])
          (i :: j :: used)
      | none => outerLoop walls tolerance is (merged ++ [walls.getD i default]) used

/-- Embedding of `merge_parallel_walls(walls, tolerance=15.0)`. -/
noncomputable def merge_parallel_walls (walls : List Wall) (tolerance : ℝ) : List Wall :=
  if walls.length < 2 then walls
  else outerLoop walls tolerance (List.range walls.length) [] []

/-- Embedding of `extract_walls_enhanced(page)`: collect, classify, merge with the
default tolerance 15. -/
noncomputable def extract_walls_enhanced (paths : List DrawPath) : List Wall :=
  merge_parallel_walls ((collect_lines paths).filterMap classify_line) 15

/-! ## Rooms, doors, windows -/

/-- The fixed room-name vocabulary of `extract_room_labels`. -/
def room_keywords : List String :=
  ["kitchen", "bedroom", "bathroom", "living", "dining",
   "hall", "hallway", "corridor", "utility", "storage",
   "garage", "office", "study", "en-suite", "ensuite",
   "wc", "toilet", "shower", "bath", "lounge", "sitting",
   "family", "breakfast", "pantry", "laundry", "closet",
   "wardrobe", "landing", "stairs", "porch", "entrance",
   "reception", "drawing", "master", "guest", "kids",
   "kit", "bed", "bth", "liv", "din"]

/-- Python `str.lower()` (ASCII). -/
def pyLower (s : String) : String := String.mk (s.toList.map Char.toLower)

/-- A room label: stripped span text plus bbox center. -/
structure RoomLabel where
  text : String
  position : ℚ × ℚ

/-- Embedding of `extract_room_labels`: spans whose lowercased text contains a room
keyword (substring containment, first keyword wins and the span is emitted
once). -/
def extract_room_labels (blocks : List Block) : List RoomLabel :=
  blocks.foldr
    (fun b acc =>
      match b.lines_opt with
      | none => acc
      | some lns =>
        (lns.foldr
          (fun ln acc2 =>
            ln.spans.filterMap
              (fun sp =>
                let t := pyStripS sp.text
                if room_keywords.any (fun kw => containsSub kw.toList (pyLower t).toList) then
                  some ⟨t, bboxCenter sp.bbox⟩
                else none) ++ acc2)
          []) ++ acc)
    []

/-- A room record (label-based stub: empty polygon, zero area/perimeter). -/
structure Room where
  name : String
  label : String
  vertices : List Point
  area : ℚ
  perimeter : ℚ
  label_position : ℚ × ℚ

/-- Embedding of `extract_rooms(page, walls)`; `walls` is accepted but never read. -/
def extract_rooms (blocks : List Block) (walls : List Wall) : List Room :=
  (extract_room_labels blocks).map (fun lb => ⟨lb.text, lb.text, [], 0, 0, lb.position⟩)

/-- A door record derived from a curve item. -/
structure Door where
  position : Point
  width : Option ℝ
  type : String

/-- Embedding of `extract_doors`: every `"c"` item yields a swing door at the centroid of
its four control points, width unresolved. -/
noncomputable def extract_doors (paths : List DrawPath) : List Door :=
  paths.foldr
    (fun pa acc =>
      pa.items.filterMap
        (fun it =>
          match it with
          | Item.curve p1 p2 p3 p4 =>
            some ⟨⟨(p1.x + p2.x + p3.x + p4.x) / 4, (p1.y + p2.y + p3.y + p4.y) / 4⟩,
                  none, "swing"⟩
          | _ => none) ++ acc)
    []

/-- A window record. -/
structure Window where
  position : Point
  width : ℝ

open Classical in
/-- Embedding of `extract_windows`: on paths of thin stroke (`0.1 < width < 0.3`), small
rectangles (`w < 50 and h < 50`) become windows. -/
noncomputable def extract_windows (paths : List DrawPath) : List Window :=
  paths.foldr
    (fun pa acc =>
      (if 0.1 < pa.width ∧ pa.width < 0.3 then
        pa.items.filterMap
          (fun it =>
            match it with
            | Item.rect r =>
              if r.width < 50 ∧ r.height < 50 then
                some ⟨⟨(r.x0 + r.x1) / 2, (r.y0 + r.y1) / 2⟩, max r.width r.height⟩
              else none
            | _ => none)
      else []) ++ acc)
    []

/-! ## Raw text and confidence -/

/-- Model of `page.get_text("text")`, modelled from the document collaborator's
contract: the page's text lines (concatenated spans) joined by newlines. -/
def page_plain_text (blocks : List Block) : String :=
  String.intercalate ("\n")
    (blocks.foldr
      (fun b acc =>
        match b.lines_opt with
        | none => acc
        | some lns => lns.map (fun ln => String.join (ln.spans.map Span.text)) ++ acc)
      [])

/-- Python `str.split('\n')` on a character list. -/
def splitNewlines : List Char → List (List Char)
  | [] => [[]]
  | '\n' :: rest => [] :: splitNewlines rest
  | c :: rest =>
    match splitNewlines rest with
    | l :: ls => (c :: l) :: ls
    | [] => [[c]]

/-- Embedding of `extract_all_text`: split on newlines, strip, keep nonempty lines. -/
def extract_all_text (blocks : List Block) : List String :=
  (splitNewlines (page_plain_text blocks).toList).foldr
    (fun l acc => let s := pyStrip l; if s ≠ [] then String.mk s :: acc else acc) []

/-- Embedding of `calculate_confidence` (lightweight scorer of the multi-page path). -/
def calculate_confidence (walls : List Wall) (dimensions : List Dimension)
    (raw_text : List String) : ℚ :=
  let s1 : ℚ := if walls.length > 50 then 0.4 else if walls.length > 20 then 0.3
    else if walls.length > 5 then 0.2 else if walls.length > 0 then 0.1 else 0
  let s2 : ℚ := if dimensions.length > 10 then 0.3 else if dimensions.length > 5 then 0.2
    else if dimensions.length > 0 then 0.1 else 0
  let s3 : ℚ := if raw_text.length > 20 then 0.2 else if raw_text.length > 5 then 0.1 else 0
  min (s1 + s2 + s3) 1

/-- Embedding of `calculate_confidence_enhanced` (single-page scorer). -/
def calculate_confidence_enhanced (walls : List Wall) (dimensions : List Dimension)
    (raw_text : List String) (rooms : List Room) (doors : List Door)
    (windows : List Window) : ℚ :=
  let s1 : ℚ := if walls.length > 30 then 0.3 else if walls.length > 15 then 0.2
    else if walls.length > 5 then 0.1 else 0
  let s2 : ℚ := if dimensions.length > 10 then 0.25 else if dimensions.length > 5 then 0.15
    else if dimensions.length > 0 then 0.05 else 0
  let s3 : ℚ := if rooms.length > 5 then 0.2 else if rooms.length > 2 then 0.1
    else if rooms.length > 0 then 0.05 else 0
  let s4 : ℚ := if doors.length > 3 ∨ windows.length > 3 then 0.15
    else if doors.length > 0 ∨ windows.length > 0 then 0.05 else 0
  let s5 : ℚ := if raw_text.length > 10 then 0.1 else if raw_text.length > 0 then 0.05 else 0
  min (s1 + s2 + s3 + s4 + s5) 1

/-! ## Orchestrators -/

/-- A page of the (out-of-scope) document model: its vector drawing paths,
its text blocks, and its dimensions. -/
structure Page where
  drawings : List DrawPath
  blocks : List Block
  width : ℝ
  height : ℝ

/-- The single-page result record; `confidence` is the alias key the code
stores next to `extraction_confidence`. -/
structure FloorPlan where
  walls : List Wall
  rooms : List Room
  dimensions : List Dimension
  doors : List Door
  windows : List Window
  page_width : ℝ
  page_height : ℝ
  scale_factor : Option ℚ
  raw_text : List String
  extraction_confidence : ℚ
  confidence : ℚ

/-- A per-page record of the multi-page path (no `confidence` alias key). -/
structure PageRecord where
  walls : List Wall
  rooms : List Room
  dimensions : List Dimension
  doors : List Door
  windows : List Window
  page_width : ℝ
  page_height : ℝ
  scale_factor : Option ℚ
  raw_text : List String
  extraction_confidence : ℚ

/-- Embedding of `extract_floor_plan(pdf_content)` after a successful `fitz.open`: a
document is its list of pages; zero pages raises `ValueError`, otherwise the
first page is processed with the enhanced extractors. -/
noncomputable def extract_floor_plan (doc : List Page) : Except String FloorPlan :=
  match doc with
  | [] => Except.error ("PDF has no pages")
  | page :: _ =>
    let walls := extract_walls_enhanced page.drawings
    let dimensions := extract_dimensions page.blocks
    let raw_text := extract_all_text page.blocks
    let rooms := extract_rooms page.blocks walls
    let doors := extract_doors page.drawings
    let windows := extract_windows page.drawings
    Except.ok
      { walls := walls
        rooms := rooms
        dimensions := dimensions
        doors := doors
        windows := windows
        page_width := page.width
        page_height := page.height
        scale_factor := detect_scale dimensions raw_text
        raw_text := raw_text
        extraction_confidence :=
          calculate_confidence_enhanced walls dimensions raw_text rooms doors windows
        confidence :=
          calculate_confidence_enhanced walls dimensions raw_text rooms doors windows }

/-- Per-page body of the `extract_all_pages` loop (lightweight variants). -/
noncomputable def extract_page_lite (page : Page) : PageRecord :=
  let walls := extract_walls page.drawings
  let dimensions := extract_dimensions page.blocks
  let raw_text := extract_all_text page.blocks
  { walls := walls
    rooms := []
    dimensions := dimensions
    doors := []
    windows := []
    page_width := page.width
    page_height := page.height
    scale_factor := detect_scale dimensions raw_text
    raw_text := raw_text
    extraction_confidence := calculate_confidence walls dimensions raw_text }

/-- Embedding of `extract_all_pages(pdf_content)` after a successful `fitz.open`.  The
body contains no page-count check and no raise path; it is wrapped in the
same `Except` as the single-page entry point so the failure behaviour of the
two can be compared. -/
noncomputable def extract_all_pages (doc : List Page) : Except String (List PageRecord) :=
  Except.ok (doc.map extract_page_lite)

/-! ## The merge loop as a first-match recursion

`merge_parallel_walls` above is a direct embedding of the imperative
index/`used`-set loop.  The following development proves it equal to the
specification-shaped recursion `mergeRec`: take the head candidate, scan the
remaining candidates in order for the first qualifying partner, consume it,
and recurse. -/

open Classical in
/-- Find the first element satisfying `p`; return it with the remaining
list (earlier, non-matching elements kept in place). -/
noncomputable def extractFirst (p : Wall → Prop) : List Wall → Option (Wall × List Wall)
  | [] => none
  | w :: ws =>
    if p w then some (w, ws)
    else
      match extractFirst p ws with
      | some pr => some (pr.1, w :: pr.2)
      | none => none

lemma extractFirst_length {p : Wall → Prop} :
    ∀ {ws : List Wall} {pr : Wall × List Wall},
      extractFirst p ws = some pr → pr.2.length + 1 = ws.length := by
  intro ws
  induction ws with
  | nil => intro pr h; simp [extractFirst] at h
  | cons w ws ih =>
    intro pr h
    by_cases hp : p w
    · simp only [extractFirst, if_pos hp, Option.some.injEq] at h
      subst h
      simp
    · rcases hE : extractFirst p ws with _ | pr'
      · simp [extractFirst, if_neg hp, hE] at h
      · simp only [extractFirst, if_neg hp, hE, Option.some.injEq] at h
        subst h
        have := ih hE
        simp
        omega

lemma extractFirst_eq_none {p : Wall → Prop} :
    ∀ {ws : List Wall}, (∀ w ∈ ws, ¬ p w) → extractFirst p ws = none := by
  intro ws
  induction ws with
  | nil => intro _; simp [extractFirst]
  | cons w ws ih =>
    intro h
    have hw : ¬ p w := h w (by simp)
    simp [extractFirst, hw, ih (fun x hx => h x (by simp [hx]))]

/-- The specification-shaped greedy merge: first qualifying partner wins,
both are consumed, unmatched candidates pass through. -/
noncomputable def mergeRec (tolerance : ℝ) : List Wall → List Wall
  | [] => []
  | w :: ws =>
    match h : extractFirst (fun w2 => are_walls_parallel_and_close w w2 tolerance) ws with
    | some pr => merge_two_walls w pr.1 :: mergeRec tolerance pr.2
    | none => w :: mergeRec tolerance ws
termination_by l => l.length
decreasing_by
  · have := extractFirst_length h
    simp only [List.length_cons]
    omega
  · simp only [List.length_cons]
    omega

lemma mergeRec_nil (tolerance : ℝ) : mergeRec tolerance [] = [] := by
  rw [mergeRec]

lemma mergeRec_cons_some {tolerance : ℝ} {w : Wall} {ws : List Wall} {pr : Wall × List Wall}
    (h : extractFirst (fun w2 => are_walls_parallel_and_close w w2 tolerance) ws = some pr) :
    mergeRec tolerance (w :: ws) = merge_two_walls w pr.1 :: mergeRec tolerance pr.2 := by
  rw [mergeRec]
  split
  · rename_i pr' h'
    rw [h] at h'
    cases h'
    rfl
  · rename_i h'
    rw [h] at h'
    cases h'

lemma mergeRec_cons_none {tolerance : ℝ} {w : Wall} {ws : List Wall}
    (h : extractFirst (fun w2 => are_walls_parallel_and_close w w2 tolerance) ws = none) :
    mergeRec tolerance (w :: ws) = w :: mergeRec tolerance ws := by
  rw [mergeRec]
  split
  · rename_i pr' h'
    rw [h] at h'
    cases h'
  · rfl

open Classical in
/-- The walls selected by an index list, skipping consumed indices. -/
noncomputable def pick (walls : List Wall) (used : List ℕ) : List ℕ → List Wall
  | [] => []
  | j :: js =>
    if j ∈ used then pick walls used js
    else walls.getD j default :: pick walls used js

lemma pick_cons_skip {walls : List Wall} {used : List ℕ} {k : ℕ} {js : List ℕ}
    (hk : k ∈ used) :
    pick walls used (k :: js) = pick walls used js := by
  simp [pick, hk]

lemma pick_cons_keep {walls : List Wall} {used : List ℕ} {k : ℕ} {js : List ℕ}
    (hk : k ∉ used) :
    pick walls used (k :: js) = walls.getD k default :: pick walls used js := by
  simp [pick, hk]

lemma pick_congr {walls : List Wall} {used used' : List ℕ} :
    ∀ {js : List ℕ}, (∀ j ∈ js, (j ∈ used ↔ j ∈ used')) →
      pick walls used js = pick walls used' js := by
  intro js
  induction js with
  | nil => intro _; rfl
  | cons k js ih =>
    intro h
    have hk := h k (by simp)
    by_cases hku : k ∈ used
    · rw [pick_cons_skip hku, pick_cons_skip (hk.mp hku)]
      exact ih (fun j hj => h j (by simp [hj]))
    · rw [pick_cons_keep hku, pick_cons_keep (fun c => hku (hk.mpr c))]
      rw [ih (fun j hj => h j (by simp [hj]))]

lemma innerScan_mem {w1 : Wall} {walls : List Wall} {tolerance : ℝ} {used : List ℕ} :
    ∀ {js : List ℕ} {j : ℕ}, innerScan w1 walls tolerance used js = some j → j ∈ js := by
  intro js
  induction js with
  | nil => intro j h; simp [innerScan] at h
  | cons k js ih =>
    intro j h
    by_cases hk : k ∈ used
    · rw [innerScan, if_pos hk] at h
      exact List.mem_cons_of_mem _ (ih h)
    · by_cases hp : are_walls_parallel_and_close w1 (walls.getD k default) tolerance
      · rw [innerScan, if_neg hk, if_pos hp] at h
        cases h
        simp
      · rw [innerScan, if_neg hk, if_neg hp] at h
        exact List.mem_cons_of_mem _ (ih h)

lemma innerScan_none_pick {w1 : Wall} {walls : List Wall} {tolerance : ℝ} {used : List ℕ} :
    ∀ {js : List ℕ}, innerScan w1 walls tolerance used js = none →
      extractFirst (fun w2 => are_walls_parallel_and_close w1 w2 tolerance)
        (pick walls used js) = none := by
  intro js
  induction js with
  | nil => intro _; simp [pick, extractFirst]
  | cons k js ih =>
    intro h
    by_cases hk : k ∈ used
    · rw [innerScan, if_pos hk] at h
      rw [pick_cons_skip hk]
      exact ih h
    · by_cases hp : are_walls_parallel_and_close w1 (walls.getD k default) tolerance
      · rw [innerScan, if_neg hk, if_pos hp] at h
        cases h
      · rw [innerScan, if_neg hk, if_neg hp] at h
        rw [pick_cons_keep hk]
        rw [extractFirst, if_neg hp, ih h]

lemma innerScan_some_pick {w1 : Wall} {walls : List Wall} {tolerance : ℝ} {used : List ℕ} :
    ∀ {js : List ℕ} {j : ℕ}, js.Nodup →
      innerScan w1 walls tolerance used js = some j →
      extractFirst (fun w2 => are_walls_parallel_and_close w1 w2 tolerance)
        (pick walls used js)
        = some (walls.getD j default, pick walls (j :: used) js) := by
  intro js
  induction js with
  | nil => intro j _ h; simp [innerScan] at h
  | cons k js ih =>
    intro j hnd h
    have hk_not : k ∉ js := (List.nodup_cons.mp hnd).1
    have hnd' : js.Nodup := (List.nodup_cons.mp hnd).2
    by_cases hk : k ∈ used
    · rw [innerScan, if_pos hk] at h
      have hj : j ∈ js := innerScan_mem h
      have hjk : j ≠ k := fun e => hk_not (e ▸ hj)
      rw [pick_cons_skip hk, pick_cons_skip (by simp [hk] : k ∈ j :: used),
        ih hnd' h]
    · by_cases hp : are_walls_parallel_and_close w1 (walls.getD k default) tolerance
      · rw [innerScan, if_neg hk, if_pos hp] at h
        cases h
        rw [pick_cons_keep hk]
        rw [pick_cons_skip (by simp : k ∈ k :: used)]
        have hsame : pick walls (k :: used) js = pick walls used js :=
          pick_congr (fun x hx => by
            have hxk : x ≠ k := fun e => hk_not (e ▸ hx)
            simp [hxk])
        rw [hsame]
        rw [extractFirst, if_pos hp]
      · rw [innerScan, if_neg hk, if_neg hp] at h
        have hj : j ∈ js := innerScan_mem h
        have hjk : j ≠ k := fun e => hk_not (e ▸ hj)
        rw [pick_cons_keep hk,
          pick_cons_keep (show k ∉ j :: used by simp [hjk.symm, hk])]
        rw [extractFirst, if_neg hp, ih hnd' h]

lemma outerLoop_pick (walls : List Wall) (tolerance : ℝ) :
    ∀ (k i : ℕ) (used : List ℕ) (merged : List Wall), walls.length - i = k →
      outerLoop walls tolerance (List.range' i k) merged used
        = merged ++ mergeRec tolerance (pick walls used (List.range' i k)) := by
  intro k
  induction k with
  | zero =>
    intro i used merged _
    simp [outerLoop, pick, mergeRec_nil]
  | succ k ih =>
    intro i used merged hik
    have hk' : walls.length - (i + 1) = k := by omega
    rw [List.range'_succ]
    by_cases hu : i ∈ used
    · rw [outerLoop, if_pos hu]
      rw [ih (i + 1) used merged hk', pick_cons_skip hu]
    · rw [outerLoop, if_neg hu]
      rw [pick_cons_keep hu]
      rcases hscan : innerScan (walls.getD i default) walls tolerance used
          (List.range' (i + 1) (walls.length - (i + 1))) with _ | j
      · rw [hk'] at hscan
        show outerLoop walls tolerance (List.range' (i + 1) k)
            (merged ++ [walls.getD i default]) used = _
        rw [ih (i + 1) used (merged ++ [walls.getD i default]) hk']
        rw [mergeRec_cons_none (innerScan_none_pick hscan)]
        simp
      · rw [hk'] at hscan
        show outerLoop walls tolerance (List.range' (i + 1) k)
            (merged ++ [merge_two_walls (walls.getD i default) (walls.getD j default)])
            (i :: j :: used) = _
        rw [ih (i + 1) (i :: j :: used)
          (merged ++ [merge_two_walls (walls.getD i default) (walls.getD j default)]) hk']
        rw [mergeRec_cons_some (innerScan_some_pick (List.nodup_range' _ _) hscan)]
        have hji : pick walls (i :: j :: used) (List.range' (i + 1) k)
            = pick walls (j :: used) (List.range' (i + 1) k) :=
          pick_congr (fun x hx => by
            have hxi : x ≠ i := by
              rcases List.mem_range'.mp hx with ⟨m, _, rfl⟩
              omega
            simp [hxi])
        rw [hji]
        simp

lemma pick_nil_used (walls : List Wall) :
    ∀ js : List ℕ, pick walls ([] : List ℕ) js = js.map (fun j => walls.getD j default) := by
  intro js
  induction js with
  | nil => rfl
  | cons k js ih => simp [pick, ih]

lemma map_getD_range (l : List Wall) :
    (List.range l.length).map (fun j => l.getD j default) = l := by
  apply List.ext_getElem (by simp)
  intro i h1 h2
  simp [List.getD_eq_getElem?_getD, List.getElem?_eq_getElem h2]

/-- The imperative merge loop computes exactly the first-match recursion. -/
theorem merge_parallel_walls_eq_mergeRec (walls : List Wall) (tolerance : ℝ) :
    merge_parallel_walls walls tolerance = mergeRec tolerance walls := by
  rcases walls with _ | ⟨w, _ | ⟨w2, ws⟩⟩
  · simp [merge_parallel_walls, mergeRec_nil]
  · simp [merge_parallel_walls]
    rw [mergeRec_cons_none (by simp [extractFirst]), mergeRec_nil]
  · rw [merge_parallel_walls]
    rw [if_neg (by simp)]
    rw [List.range_eq_range']
    rw [outerLoop_pick (w :: w2 :: ws) tolerance (w :: w2 :: ws).length 0 [] [] (by omega)]
    rw [← List.range_eq_range', pick_nil_used, map_getD_range]
    simp

/-! ## Orthogonality: the code's `abs`-then-`mod` test versus the
specification's plain `mod` test -/

/-- The specification's orthogonality reading: the `atan2` angle in degrees,
reduced modulo 180, lies within 5 degrees of 0, 90 or 180. -/
noncomputable def spec_is_orthogonal (angle : ℝ) : Prop :=
  |pymod (degrees angle) 180| < 5 ∨
  |pymod (degrees angle) 180 - 90| < 5 ∨
  |pymod (degrees angle) 180 - 180| < 5

lemma pymod_eq_self {a b : ℝ} (hb : 0 < b) (h0 : 0 ≤ a) (h1 : a < b) : pymod a b = a := by
  unfold pymod
  have : ⌊a / b⌋ = 0 :=
    Int.floor_eq_zero_iff.mpr ⟨div_nonneg h0 hb.le, (div_lt_one hb).mpr h1⟩
  rw [this]
  simp

lemma pymod_self {b : ℝ} (hb : b ≠ 0) : pymod b b = 0 := by
  unfold pymod
  rw [div_self hb]
  simp

lemma pymod_neg_window {a b : ℝ} (hb : 0 < b) (h0 : -b < a) (h1 : a < 0) :
    pymod a b = a + b := by
  unfold pymod
  have h2 : (-1 : ℝ) < a / b := by
    rw [lt_div_iff₀ hb]
    linarith
  have h3 : a / b < 0 := div_neg_of_neg_of_pos h1 hb
  have : ⌊a / b⌋ = -1 := by
    apply Int.floor_eq_iff.mpr
    constructor
    · push_cast
      linarith
    · push_cast
      linarith
  rw [this]
  push_cast
  ring

/-- For an angle value `d ∈ (-180, 180]` (degrees), the code's test on
`pymod |d| 180` agrees with the specification's test on `pymod d 180`. -/
lemma ortho_tests_equiv {d : ℝ} (h1 : -180 < d) (h2 : d ≤ 180) :
    (pymod |d| 180 < 5 ∨ |pymod |d| 180 - 90| < 5 ∨ |pymod |d| 180 - 180| < 5) ↔
    (|pymod d 180| < 5 ∨ |pymod d 180 - 90| < 5 ∨ |pymod d 180 - 180| < 5) := by
  rcases lt_trichotomy d 0 with hneg | hzero | hpos
  · -- d < 0: the code sees b = -d, the spec sees 180 - b
    have habs : |d| = -d := abs_of_neg hneg
    have hb0 : 0 < -d := by linarith
    have hb180 : -d < 180 := by linarith
    rw [habs, pymod_eq_self (by norm_num) hb0.le hb180,
      pymod_neg_window (by norm_num) (by linarith) hneg]
    simp only [abs_lt]
    constructor
    · rintro (h | h | h)
      · right; right
        constructor <;> linarith
      · right; left
        constructor <;> linarith
      · left
        constructor <;> linarith
    · rintro (h | h | h)
      · right; right
        rcases h with ⟨ha, hb⟩
        constructor <;> linarith
      · right; left
        rcases h with ⟨ha, hb⟩
        constructor <;> linarith
      · left
        rcases h with ⟨ha, hb⟩
        linarith
  · -- d = 0
    subst hzero
    rw [abs_zero, pymod_eq_self (by norm_num) le_rfl (by norm_num)]
    norm_num
  · -- d > 0
    have habs : |d| = d := abs_of_pos hpos
    rcases eq_or_lt_of_le h2 with h180 | hlt
    · rw [habs, h180, pymod_self (by norm_num : (180 : ℝ) ≠ 0)]
      norm_num
    · rw [habs, pymod_eq_self (by norm_num) hpos.le hlt]
      constructor
      · rintro (h | h | h)
        · left
          rw [abs_lt]
          constructor <;> linarith
        · right; left; exact h
        · right; right; exact h
      · rintro (h | h | h)
        · left
          rw [abs_lt] at h
          exact h.2
        · right; left; exact h
        · right; right; exact h

lemma atan2_range (y x : ℝ) : -Real.pi < atan2 y x ∧ atan2 y x ≤ Real.pi := by
  have hpi := Real.pi_pos
  have harcU := Real.arctan_lt_pi_div_two (y / x)
  have harcL := Real.neg_pi_div_two_lt_arctan (y / x)
  unfold atan2
  split_ifs with hx hx' hy hy' hy''
  · constructor <;> linarith
  · -- x < 0, 0 ≤ y: arctan (y/x) + π with y/x ≤ 0
    have hyx : y / x ≤ 0 := div_nonpos_of_nonneg_of_nonpos hy hx'.le
    have : Real.arctan (y / x) ≤ Real.arctan 0 := Real.arctan_strictMono.monotone hyx
    rw [Real.arctan_zero] at this
    constructor <;> linarith
  · -- x < 0, y < 0: arctan (y/x) - π with y/x > 0
    have hyx : 0 < y / x := div_pos_of_neg_of_neg (by linarith) hx'
    have : Real.arctan 0 < Real.arctan (y / x) := Real.arctan_strictMono hyx
    rw [Real.arctan_zero] at this
    constructor <;> linarith
  · constructor <;> linarith
  · constructor <;> linarith
  · constructor <;> linarith

lemma degrees_range {θ : ℝ} (h1 : -Real.pi < θ) (h2 : θ ≤ Real.pi) :
    -180 < degrees θ ∧ degrees θ ≤ 180 := by
  have hpi := Real.pi_pos
  unfold degrees
  constructor
  · rw [lt_div_iff₀ hpi]
    nlinarith
  · rw [div_le_iff₀ hpi]
    nlinarith

/-- The code's orthogonality test coincides with the specification's
reading for every `atan2` angle. -/
lemma is_orthogonal_iff_spec (y x : ℝ) :
    is_orthogonal_of_angle (atan2 y x) ↔ spec_is_orthogonal (atan2 y x) := by
  rcases atan2_range y x with ⟨h1, h2⟩
  rcases degrees_range h1 h2 with ⟨hd1, hd2⟩
  exact ortho_tests_equiv hd1 hd2

/-! ## Shared helpers for concrete geometric evaluations -/

lemma real_sqrt_of_sq {x a : ℝ} (ha : 0 ≤ a) (hx : x = a ^ 2) : Real.sqrt x = a := by
  rw [hx]
  exact Real.sqrt_sq ha

lemma ite_nonneg {c : Prop} [Decidable c] {a b : ℚ} (ha : 0 ≤ a) (hb : 0 ≤ b) :
    0 ≤ if c then a else b := by
  split_ifs <;> assumption

/-! ## Claim theorems -/

/-- C1, counterexample: the claim asserts that the bare span `"50"` yields a
dimension record with numeric value `50000.0`; in fact the bare-number
pattern requires 3-5 digits, so the span `"50"` matches no pattern and
`extract_dimensions` emits no record at all. -/
theorem c1_counterexample :
    extract_dimensions [⟨some [⟨[⟨"50", (0, 0, 10, 10)⟩]⟩]⟩] = [] := rfl

/-- C1 (amended): dimension text converts to millimeters per the fixed unit
table — `"4500mm"` → 4500, `"450cm"` → 4500, `"4.5m"` → 4500,
`"4'-6\""` → exactly 1371.6, bare `"150"` → 150 (≥ 100 rule), and the
×1000 rule for matched bare numbers below 100 (reachable only through
leading zeros, e.g. `"050"` → 50000) — while the two-digit span `"50"`
matches no pattern and yields no dimension record. -/
theorem c1_dimension_unit_table :
    extract_dimensions [⟨some [⟨[⟨"4500mm", (0, 0, 10, 10)⟩]⟩]⟩]
      = [⟨"4500mm", some 4500, (5, 5)⟩] ∧
    extract_dimensions [⟨some [⟨[⟨"450cm", (0, 0, 10, 10)⟩]⟩]⟩]
      = [⟨"450cm", some 4500, (5, 5)⟩] ∧
    extract_dimensions [⟨some [⟨[⟨"4.5m", (0, 0, 10, 10)⟩]⟩]⟩]
      = [⟨"4.5m", some 4500, (5, 5)⟩] ∧
    extract_dimensions [⟨some [⟨[⟨String.mk ['4', '\'', '-', '6', '\"'], (0, 0, 10, 10)⟩]⟩]⟩]
      = [⟨String.mk ['4', '\'', '-', '6', '\"'], some 1371.6, (5, 5)⟩] ∧
    extract_dimensions [⟨some [⟨[⟨"150", (0, 0, 10, 10)⟩]⟩]⟩]
      = [⟨"150", some 150, (5, 5)⟩] ∧
    extract_dimensions [⟨some [⟨[⟨"50", (0, 0, 10, 10)⟩]⟩]⟩] = [] ∧
    extract_dimensions [⟨some [⟨[⟨"050", (0, 0, 10, 10)⟩]⟩]⟩]
      = [⟨"050", some 50000, (5, 5)⟩] := by
  refine ⟨?_, ?_, ?_, ?_, ?_, rfl, ?_⟩
  · have h : extract_dimensions [⟨some [⟨[⟨"4500mm", (0, 0, 10, 10)⟩]⟩]⟩]
        = [⟨"4500mm", some ((4500 : ℕ) : ℚ), bboxCenter (0, 0, 10, 10)⟩] := rfl
    rw [h]
    norm_num [bboxCenter]
  · have h : extract_dimensions [⟨some [⟨[⟨"450cm", (0, 0, 10, 10)⟩]⟩]⟩]
        = [⟨"450cm", some (((450 : ℕ) : ℚ) * 10), bboxCenter (0, 0, 10, 10)⟩] := rfl
    rw [h]
    norm_num [bboxCenter]
  · have h : extract_dimensions [⟨some [⟨[⟨"4.5m", (0, 0, 10, 10)⟩]⟩]⟩]
        = [⟨"4.5m", some ((((4 : ℕ) : ℚ) + ((5 : ℕ) : ℚ) / 10 ^ 1) * 1000),
            bboxCenter (0, 0, 10, 10)⟩] := rfl
    rw [h]
    norm_num [bboxCenter]
  · have h : extract_dimensions
          [⟨some [⟨[⟨String.mk ['4', '\'', '-', '6', '\"'], (0, 0, 10, 10)⟩]⟩]⟩]
        = [⟨String.mk ['4', '\'', '-', '6', '\"'],
            some ((((4 : ℕ) : ℚ) * 12 + ((6 : ℕ) : ℚ)) * (254 / 10)),
            bboxCenter (0, 0, 10, 10)⟩] := rfl
    rw [h]
    norm_num [bboxCenter]
  · have h : extract_dimensions [⟨some [⟨[⟨"150", (0, 0, 10, 10)⟩]⟩]⟩]
        = [⟨"150", some ((150 : ℕ) : ℚ), bboxCenter (0, 0, 10, 10)⟩] := rfl
    rw [h]
    norm_num [bboxCenter]
  · have h : extract_dimensions [⟨some [⟨[⟨"050", (0, 0, 10, 10)⟩]⟩]⟩]
        = [⟨"050", some (((50 : ℕ) : ℚ) * 1000), bboxCenter (0, 0, 10, 10)⟩] := rfl
    rw [h]
    norm_num [bboxCenter]

/-- C2, counterexample: the claim asserts that the multi-page entry point
also signals a hard failure on a zero-page document; in fact
`extract_all_pages` contains no page-count check and returns an empty list
of records. -/
theorem c2_counterexample :
    extract_all_pages [] = Except.ok [] := rfl

/-- C2 (amended): on a zero-page document the single-page entry point raises
(`ValueError("PDF has no pages")`), while the multi-page entry point does
not fail and returns an empty list of per-page records. -/
theorem c2_zero_pages :
    extract_floor_plan [] = Except.error ("PDF has no pages") ∧
    extract_all_pages [] = Except.ok [] :=
  ⟨rfl, rfl⟩

/-- C3, counterexample: the claim asserts the enhanced single-page classifier
also turns a `Rect` of width 20 and height 30 into 4 walls; in fact
`extract_walls_enhanced` only collects `"l"` items and produces no wall at
all from a rectangle. -/
theorem c3_counterexample :
    extract_walls_enhanced [⟨1, none, [Item.rect ⟨0, 0, 20, 30⟩]⟩] = [] ∧
    (extract_walls_enhanced [⟨1, none, [Item.rect ⟨0, 0, 20, 30⟩]⟩]).length ≠ 4 := by
  have h : extract_walls_enhanced [⟨1, none, [Item.rect ⟨0, 0, 20, 30⟩]⟩] = [] := by
    simp [extract_walls_enhanced, collect_lines, merge_parallel_walls]
  exact ⟨h, by rw [h]; simp⟩

/-- C3 (amended): a `Rect` primitive of width `W` and height `H` (both > 10)
processed by the lightweight wall extractor yields exactly 4 Wall records
with lengths `[W, H, W, H]` whose endpoints form a closed loop, summing to
the perimeter `2(W + H)`; the enhanced single-page classifier, however,
ignores `Rect` primitives entirely and yields no walls from them. -/
theorem c3_rect_walls :
    (∀ (r : Rect4) (pw : ℝ), r.width > 10 → r.height > 10 →
      lite_item_walls pw (Item.rect r) =
        [⟨⟨r.x0, r.y0⟩, ⟨r.x1, r.y0⟩, r.width, none, none⟩,
         ⟨⟨r.x1, r.y0⟩, ⟨r.x1, r.y1⟩, r.height, none, none⟩,
         ⟨⟨r.x1, r.y1⟩, ⟨r.x0, r.y1⟩, r.width, none, none⟩,
         ⟨⟨r.x0, r.y1⟩, ⟨r.x0, r.y0⟩, r.height, none, none⟩] ∧
      ((lite_item_walls pw (Item.rect r)).map Wall.length).sum = 2 * (r.width + r.height)) ∧
    (∀ paths : List DrawPath,
      (∀ pa ∈ paths, ∀ it ∈ pa.items, ∀ p q, it ≠ Item.line p q) →
      extract_walls_enhanced paths = []) := by
  constructor
  · intro r pw h1 h2
    have he : lite_item_walls pw (Item.rect r) =
        [⟨⟨r.x0, r.y0⟩, ⟨r.x1, r.y0⟩, r.width, none, none⟩,
         ⟨⟨r.x1, r.y0⟩, ⟨r.x1, r.y1⟩, r.height, none, none⟩,
         ⟨⟨r.x1, r.y1⟩, ⟨r.x0, r.y1⟩, r.width, none, none⟩,
         ⟨⟨r.x0, r.y1⟩, ⟨r.x0, r.y0⟩, r.height, none, none⟩] := by
      rw [lite_item_walls, if_pos (Or.inl h1)]
    refine ⟨he, ?_⟩
    rw [he]
    simp
    ring
  · intro paths hno
    have hcol : collect_lines paths = [] := by
      induction paths with
      | nil => rfl
      | cons pa ps ih =>
        rw [collect_lines, List.foldr_cons]
        rw [show List.foldr _ [] ps = collect_lines ps from rfl]
        rw [ih (fun pa' h' it hit => hno pa' (by simp [h']) it hit)]
        rw [List.append_nil]
        apply List.filterMap_eq_nil.mpr
        intro it hit
        have := hno pa (by simp) it hit
        cases it with
        | line p q => exact absurd rfl (this p q)
        | rect r => rfl
        | curve p1 p2 p3 p4 => rfl
        | quad p1 p2 p3 p4 => rfl
    rw [extract_walls_enhanced, hcol]
    simp [merge_parallel_walls]

/-- C3 witness: the lightweight extractor on the concrete rectangle
`(0,0)-(20,30)` yields the 4-wall closed loop with lengths 20, 30, 20, 30
and perimeter 100. -/
theorem c3_rect_walls_witness :
    lite_item_walls 1 (Item.rect ⟨0, 0, 20, 30⟩) =
      [⟨⟨0, 0⟩, ⟨20, 0⟩, Rect4.width ⟨0, 0, 20, 30⟩, none, none⟩,
       ⟨⟨20, 0⟩, ⟨20, 30⟩, Rect4.height ⟨0, 0, 20, 30⟩, none, none⟩,
       ⟨⟨20, 30⟩, ⟨0, 30⟩, Rect4.width ⟨0, 0, 20, 30⟩, none, none⟩,
       ⟨⟨0, 30⟩, ⟨0, 0⟩, Rect4.height ⟨0, 0, 20, 30⟩, none, none⟩] ∧
    ((lite_item_walls 1 (Item.rect ⟨0, 0, 20, 30⟩)).map Wall.length).sum
      = 2 * (Rect4.width ⟨0, 0, 20, 30⟩ + Rect4.height ⟨0, 0, 20, 30⟩) := by
  have h := c3_rect_walls.1 ⟨0, 0, 20, 30⟩ 1
    (by rw [Rect4.width]; rw [abs_of_nonneg] <;> norm_num)
    (by rw [Rect4.height]; rw [abs_of_nonneg] <;> norm_num)
  exact h

/-- C4: the enhanced geometric classifier emits a wall candidate from a line
if and only if its Euclidean length exceeds 20 and (its stroke width is at
least 0.3 or the line is orthogonal), where orthogonality means the `atan2`
angle of the segment, in degrees and reduced modulo 180, lies within 5
degrees of 0, 90 or 180; a line failing the rule produces no candidate. -/
theorem c4_enhanced_line_rule :
    ∀ (p q : Point) (wd : ℝ) (c : Option Unit),
      collect_lines [⟨wd, c, [Item.line p q]⟩]
        = [⟨p, q, euclen p q, wd, atan2 (q.y - p.y) (q.x - p.x), c⟩] ∧
      ((∃ w, classify_line ⟨p, q, euclen p q, wd, atan2 (q.y - p.y) (q.x - p.x), c⟩ = some w)
        ↔ euclen p q > 20 ∧
          (wd ≥ 0.3 ∨ spec_is_orthogonal (atan2 (q.y - p.y) (q.x - p.x)))) := by
  intro p q wd c
  constructor
  · rfl
  · have hiff :
        (euclen p q > 20 ∧
          (wd ≥ 0.3 ∨ is_orthogonal_of_angle (atan2 (q.y - p.y) (q.x - p.x)))) ↔
        (euclen p q > 20 ∧
          (wd ≥ 0.3 ∨ spec_is_orthogonal (atan2 (q.y - p.y) (q.x - p.x)))) :=
      and_congr_right (fun _ => or_congr_right (is_orthogonal_iff_spec _ _))
    rw [classify_line]
    by_cases h : euclen p q > 20 ∧
        (wd ≥ 0.3 ∨ is_orthogonal_of_angle (atan2 (q.y - p.y) (q.x - p.x)))
    · rw [if_pos h]
      exact iff_of_true ⟨_, rfl⟩ (hiff.mp h)
    · rw [if_neg h]
      exact iff_of_false (by simp) (fun hr => h (hiff.mpr hr))

/-- C5: in the greedy single-pass merge, two candidates qualify exactly when
their midpoints are within 15 units and their lengths differ by less than
20% of the first one's length; the first qualifying partner wins (both
consumed), the merged wall carries the per-coordinate endpoint midpoints,
the average length, and the start-point distance as thickness; a candidate
with no match passes through unmerged. -/
theorem c5_merge_semantics :
    (∀ w1 w2 : Wall, are_walls_parallel_and_close w1 w2 15 ↔
      (Real.sqrt (((w2.start.x + w2.endp.x) / 2 - (w1.start.x + w1.endp.x) / 2) ^ 2 +
                  ((w2.start.y + w2.endp.y) / 2 - (w1.start.y + w1.endp.y) / 2) ^ 2) < 15 ∧
       |w1.length - w2.length| < 0.2 * w1.length)) ∧
    (∀ w1 w2 : Wall, merge_two_walls w1 w2 =
      ⟨⟨(w1.start.x + w2.start.x) / 2, (w1.start.y + w2.start.y) / 2⟩,
       ⟨(w1.endp.x + w2.endp.x) / 2, (w1.endp.y + w2.endp.y) / 2⟩,
       (w1.length + w2.length) / 2,
       some (Real.sqrt ((w1.start.x - w2.start.x) ^ 2 + (w1.start.y - w2.start.y) ^ 2)),
       none⟩) ∧
    (∀ (w : Wall) (ws : List Wall),
      merge_parallel_walls (w :: ws) 15 =
        match extractFirst (fun w2 => are_walls_parallel_and_close w w2 15) ws with
        | some pr => merge_two_walls w pr.1 :: merge_parallel_walls pr.2 15
        | none => w :: merge_parallel_walls ws 15) := by
  refine ⟨?_, ?_, ?_⟩
  · intro w1 w2
    rw [are_walls_parallel_and_close]
    exact and_congr_right (fun _ => by rw [mul_comm])
  · intro w1 w2
    rw [merge_two_walls]
    rw [abs_of_nonneg (Real.sqrt_nonneg _)]
  · intro w ws
    rw [merge_parallel_walls_eq_mergeRec]
    rcases hE : extractFirst (fun w2 => are_walls_parallel_and_close w w2 15) ws with _ | pr
    · rw [mergeRec_cons_none hE]
      show w :: mergeRec 15 ws = w :: merge_parallel_walls ws 15
      rw [merge_parallel_walls_eq_mergeRec]
    · rw [mergeRec_cons_some hE]
      show merge_two_walls w pr.1 :: mergeRec 15 pr.2
        = merge_two_walls w pr.1 :: merge_parallel_walls pr.2 15
      rw [merge_parallel_walls_eq_mergeRec]

/-- C6: wall merging is idempotent on any list with no near-duplicate pair
(no later wall within 15 units of midpoint distance and within 20% of the
earlier wall's length). -/
theorem c6_merge_idempotent :
    ∀ L : List Wall,
      L.Pairwise (fun a b => ¬ are_walls_parallel_and_close a b 15) →
      merge_parallel_walls (merge_parallel_walls L 15) 15 = merge_parallel_walls L 15 := by
  have hid : ∀ L : List Wall,
      L.Pairwise (fun a b => ¬ are_walls_parallel_and_close a b 15) →
      mergeRec 15 L = L := by
    intro L
    induction L with
    | nil => intro _; exact mergeRec_nil 15
    | cons w ws ih =>
      intro h
      rcases List.pairwise_cons.mp h with ⟨h1, h2⟩
      rw [mergeRec_cons_none (extractFirst_eq_none h1), ih h2]
  intro L h
  have e : merge_parallel_walls L 15 = L := by
    rw [merge_parallel_walls_eq_mergeRec]
    exact hid L h
  rw [e]
  exact e

/-- C6 witness: two concrete walls of length 10 with midpoints 40 units
apart do not qualify as near-duplicates, and merging their list twice
equals merging it once. -/
theorem c6_merge_idempotent_witness :
    merge_parallel_walls
        (merge_parallel_walls
          [⟨⟨0, 0⟩, ⟨10, 0⟩, 10, none, none⟩, ⟨⟨40, 0⟩, ⟨50, 0⟩, 10, none, none⟩] 15) 15
      = merge_parallel_walls
          [⟨⟨0, 0⟩, ⟨10, 0⟩, 10, none, none⟩, ⟨⟨40, 0⟩, ⟨50, 0⟩, 10, none, none⟩] 15 := by
  apply c6_merge_idempotent
  refine List.pairwise_cons.mpr ⟨?_, List.pairwise_singleton _ _⟩
  intro b hb
  rcases List.mem_singleton.mp hb with rfl
  rw [are_walls_parallel_and_close]
  rintro ⟨hd, _⟩
  have hs : Real.sqrt ((((40:ℝ) + 50) / 2 - (0 + 10) / 2) ^ 2 + ((0 + 0) / 2 - (0 + 0) / 2) ^ 2)
      = 40 := real_sqrt_of_sq (by norm_num) (by norm_num)
  rw [hs] at hd
  linarith

/-- C7: both confidence scorers return a value in the interval [0, 1] on
every combination of inputs. -/
theorem c7_confidence_bounds :
    ∀ (walls : List Wall) (dimensions : List Dimension) (raw_text : List String)
      (rooms : List Room) (doors : List Door) (windows : List Window),
      0 ≤ calculate_confidence walls dimensions raw_text ∧
      calculate_confidence walls dimensions raw_text ≤ 1 ∧
      0 ≤ calculate_confidence_enhanced walls dimensions raw_text rooms doors windows ∧
      calculate_confidence_enhanced walls dimensions raw_text rooms doors windows ≤ 1 := by
  intro walls dimensions raw_text rooms doors windows
  refine ⟨?_, ?_, ?_, ?_⟩
  · simp only [calculate_confidence]
    refine le_min (add_nonneg (add_nonneg ?_ ?_) ?_) (by norm_num)
    · exact ite_nonneg (by norm_num)
        (ite_nonneg (by norm_num) (ite_nonneg (by norm_num)
          (ite_nonneg (by norm_num) le_rfl)))
    · exact ite_nonneg (by norm_num)
        (ite_nonneg (by norm_num) (ite_nonneg (by norm_num) le_rfl))
    · exact ite_nonneg (by norm_num) (ite_nonneg (by norm_num) le_rfl)
  · simp only [calculate_confidence]
    exact min_le_right _ _
  · simp only [calculate_confidence_enhanced]
    refine le_min (add_nonneg (add_nonneg (add_nonneg (add_nonneg ?_ ?_) ?_) ?_) ?_)
      (by norm_num)
    · exact ite_nonneg (by norm_num)
        (ite_nonneg (by norm_num) (ite_nonneg (by norm_num) le_rfl))
    · exact ite_nonneg (by norm_num)
        (ite_nonneg (by norm_num) (ite_nonneg (by norm_num) le_rfl))
    · exact ite_nonneg (by norm_num)
        (ite_nonneg (by norm_num) (ite_nonneg (by norm_num) le_rfl))
    · exact ite_nonneg (by norm_num) (ite_nonneg (by norm_num) le_rfl)
    · exact ite_nonneg (by norm_num) (ite_nonneg (by norm_num) le_rfl)
  · simp only [calculate_confidence_enhanced]
    exact min_le_right _ _

/-- C8: on a document with at least one page whose first page exposes no
vector drawings and no text, single-page extraction succeeds with an
all-empty record, a null scale factor and confidence exactly 0. -/
theorem c8_empty_page :
    ∀ (pw ph : ℝ) (rest : List Page),
      extract_floor_plan ({ drawings := [], blocks := [], width := pw, height := ph } :: rest)
        = Except.ok
            { walls := [], rooms := [], dimensions := [], doors := [], windows := [],
              page_width := pw, page_height := ph, scale_factor := none, raw_text := [],
              extraction_confidence := 0, confidence := 0 } := by
  intro pw ph rest
  have hwalls : extract_walls_enhanced [] = [] := by
    simp [extract_walls_enhanced, collect_lines, merge_parallel_walls]
  have htext : extract_all_text [] = [] := rfl
  simp only [extract_floor_plan]
  rw [hwalls, htext]
  norm_num [extract_dimensions, extract_rooms, extract_room_labels, extract_doors,
    extract_windows, detect_scale, calculate_confidence_enhanced]

/-- C9: scale detection scans the raw text lines in order for the
`1 : N` pattern (optional leading "scale"), returns the first `N` found with
no plausibility validation (`"1:7"` is accepted), yields 100 on a line
containing `"Scale 1:100"`, and returns null when no line matches. -/
theorem c9_detect_scale :
    (∀ (dims : List Dimension) (ts : List String),
      detect_scale dims ("Scale 1:100" :: ts) = some 100) ∧
    (∀ (dims : List Dimension) (t : String) (ts : List String) (v : ℕ),
      scaleLineMatch t = some v → detect_scale dims (t :: ts) = some (v : ℚ)) ∧
    (∀ (dims : List Dimension) (t : String) (ts : List String),
      scaleLineMatch t = none → detect_scale dims (t :: ts) = detect_scale dims ts) ∧
    (∀ (dims : List Dimension) (ts : List String),
      (∀ t ∈ ts, scaleLineMatch t = none) → detect_scale dims ts = none) ∧
    (∀ (dims : List Dimension) (ts : List String),
      detect_scale dims ("1:7" :: ts) = some 7) := by
  have hstep : ∀ (dims : List Dimension) (t : String) (ts : List String),
      detect_scale dims (t :: ts) =
        match scaleLineMatch t with
        | some n => some (n : ℚ)
        | none => detect_scale dims ts := by
    intro dims t ts
    rfl
  refine ⟨?_, ?_, ?_, ?_, ?_⟩
  · intro dims ts
    rw [hstep]
    rw [show scaleLineMatch ("Scale 1:100") = some 100 from by decide]
    norm_num
  · intro dims t ts v h
    rw [hstep, h]
  · intro dims t ts h
    rw [hstep, h]
  · intro dims ts h
    induction ts with
    | nil => rfl
    | cons t ts ih =>
      rw [hstep, h t (by simp)]
      exact ih (fun t' ht' => h t' (by simp [ht']))
  · intro dims ts
    rw [hstep]
    rw [show scaleLineMatch ("1:7") = some 7 from by decide]
    norm_num

/-- C9 witness: on concrete inputs, a matchless line list yields null and a
`"Scale 1:100"` line yields 100. -/
theorem c9_detect_scale_witness :
    detect_scale [] ["floor plan", "ground floor"] = none ∧
    detect_scale [] ["Scale 1:100"] = some 100 := by
  constructor
  · apply c9_detect_scale.2.2.2.1
    intro t ht
    rcases List.mem_cons.mp ht with rfl | ht'
    · decide
    · rcases List.mem_singleton.mp ht' with rfl
      decide
  · exact c9_detect_scale.1 [] []

/-- C10 (implicit): the lightweight extractor classifies a line as a wall
iff its length exceeds 10 and its stroke width is at least 0.3
(orthogonality is never consulted): its records carry no thickness and no
orthogonality flag, and a thin orthogonal line accepted by the enhanced
classifier produces nothing here. -/
lemma euclen_0_30 : euclen ⟨0, 0⟩ ⟨30, 0⟩ = 30 := by
  rw [euclen]
  exact real_sqrt_of_sq (by norm_num) (by norm_num)

lemma atan2_0_30 : atan2 ((0 : ℝ) - 0) ((30 : ℝ) - 0) = 0 := by
  rw [atan2, if_pos (by norm_num : (0 : ℝ) < 30 - 0)]
  norm_num [Real.arctan_zero]

lemma horizontal_is_orthogonal : is_orthogonal_of_angle (atan2 ((0 : ℝ) - 0) ((30 : ℝ) - 0)) := by
  rw [is_orthogonal_of_angle, atan2_0_30]
  left
  have hdeg : degrees 0 = 0 := by
    rw [degrees]
    ring
  rw [hdeg, abs_zero, pymod_eq_self (by norm_num) le_rfl (by norm_num)]
  norm_num

theorem c10_lite_line_rule :
    (∀ (p q : Point) (pw : ℝ), euclen p q > 10 ∧ pw ≥ 0.3 →
      lite_item_walls pw (Item.line p q) = [⟨p, q, euclen p q, none, none⟩]) ∧
    (∀ (p q : Point) (pw : ℝ), ¬ (euclen p q > 10 ∧ pw ≥ 0.3) →
      lite_item_walls pw (Item.line p q) = []) ∧
    (∀ (pw : ℝ) (it : Item), ∀ w ∈ lite_item_walls pw it,
      w.thickness = none ∧ w.is_orthogonal = none) ∧
    (extract_walls_enhanced [⟨0.1, none, [Item.line ⟨0, 0⟩ ⟨30, 0⟩]⟩] ≠ [] ∧
     extract_walls [⟨0.1, none, [Item.line ⟨0, 0⟩ ⟨30, 0⟩]⟩] = []) := by
  refine ⟨?_, ?_, ?_, ?_, ?_⟩
  · intro p q pw h
    rw [lite_item_walls, if_pos h]
  · intro p q pw h
    rw [lite_item_walls, if_neg h]
  · intro pw it w hw
    cases it with
    | line p q =>
      rw [lite_item_walls] at hw
      split_ifs at hw
      · rcases List.mem_singleton.mp hw with rfl
        exact ⟨rfl, rfl⟩
      · simp at hw
    | rect r =>
      rw [lite_item_walls] at hw
      split_ifs at hw
      · simp only [List.mem_cons, List.mem_singleton] at hw
        rcases hw with rfl | rfl | rfl | rfl | h
        · exact ⟨rfl, rfl⟩
        · exact ⟨rfl, rfl⟩
        · exact ⟨rfl, rfl⟩
        · exact ⟨rfl, rfl⟩
        · simp at h
      · simp at hw
    | curve p1 p2 p3 p4 => simp [lite_item_walls] at hw
    | quad p1 p2 p3 p4 => simp [lite_item_walls] at hw
  · -- the enhanced classifier accepts the thin horizontal line
    have hcl : classify_line
        ⟨⟨0, 0⟩, ⟨30, 0⟩, euclen ⟨0, 0⟩ ⟨30, 0⟩, 0.1,
          atan2 ((0 : ℝ) - 0) ((30 : ℝ) - 0), none⟩
        = some ⟨⟨0, 0⟩, ⟨30, 0⟩, euclen ⟨0, 0⟩ ⟨30, 0⟩, some 0.1,
            some (is_orthogonal_of_angle (atan2 ((0 : ℝ) - 0) ((30 : ℝ) - 0)))⟩ := by
      rw [classify_line,
        if_pos ⟨by rw [euclen_0_30]; norm_num, Or.inr horizontal_is_orthogonal⟩]
    show merge_parallel_walls
        ((collect_lines [⟨0.1, none, [Item.line ⟨0, 0⟩ ⟨30, 0⟩]⟩]).filterMap classify_line)
        15 ≠ []
    rw [show collect_lines [⟨0.1, none, [Item.line ⟨0, 0⟩ ⟨30, 0⟩]⟩]
        = [⟨⟨0, 0⟩, ⟨30, 0⟩, euclen ⟨0, 0⟩ ⟨30, 0⟩, 0.1,
            atan2 ((0 : ℝ) - 0) ((30 : ℝ) - 0), none⟩] from rfl]
    rw [List.filterMap_cons, hcl]
    rw [show List.filterMap classify_line [] = [] from rfl]
    rw [merge_parallel_walls, if_pos (by simp)]
    simp
  · -- the lightweight extractor rejects it (stroke width below 0.3)
    have hlite : lite_item_walls (0.1 : ℝ) (Item.line ⟨0, 0⟩ ⟨30, 0⟩) = [] := by
      rw [lite_item_walls, if_neg]
      rintro ⟨_, hge⟩
      norm_num at hge
    simp [extract_walls, hlite]

/-- C10 witness: a concrete line of length 30 and stroke width 1 is kept by
the lightweight extractor, and its record carries no thickness and no
orthogonality flag. -/
theorem c10_lite_line_rule_witness :
    lite_item_walls 1 (Item.line ⟨0, 0⟩ ⟨30, 0⟩)
      = [⟨⟨0, 0⟩, ⟨30, 0⟩, euclen ⟨0, 0⟩ ⟨30, 0⟩, none, none⟩] ∧
    (⟨⟨0, 0⟩, ⟨30, 0⟩, euclen ⟨0, 0⟩ ⟨30, 0⟩, none, none⟩ : Wall).thickness = none ∧
    (⟨⟨0, 0⟩, ⟨30, 0⟩, euclen ⟨0, 0⟩ ⟨30, 0⟩, none, none⟩ : Wall).is_orthogonal = none := by
  have h1 := c10_lite_line_rule.1 ⟨0, 0⟩ ⟨30, 0⟩ 1
    ⟨by rw [euclen_0_30]; norm_num, by norm_num⟩
  refine ⟨h1, ?_⟩
  exact c10_lite_line_rule.2.2.1 1 (Item.line ⟨0, 0⟩ ⟨30, 0⟩) _ (by rw [h1]; simp)

end QsParser
